import Mathlib

/-!
Verification of the morde-rs utility library against its specification.

The library consists of four pure components:

* ErrorModel (src/errors.rs): `StatusKind`, `AppError`, its convenience
  constructors, and conversions from lower-level error values.
* FieldValidator (src/lib.rs): the field-emptiness check over records with
  optional fields.
* RecordIdCodec (src/surrealdb.rs): parsing a `table:key` string into a
  record identifier and serializing the key portion back out.
* TokenClaims (src/surrealdb.rs): insecure JWT payload decoding.

Strings are embedded as `String` where only equality is needed, and as
`List Char` where the proofs reason about the character structure
(splitting on a delimiter). Machine integers (`u16`, `u64`) are embedded
as `Nat`: no arithmetic is performed on them, so overflow cannot arise.
External crate functions (base64 decoding, JSON deserialization) are
parameters of the embedding, since their code is not part of this
repository; the theorems about `decode_payload_insecurely` hold for every
choice of those parameters.
-/

namespace MordeRs

/-! ## ErrorModel (src/errors.rs) -/

/-- Embeds `enum StatusKind { Http(StatusCode), App(u16) }`.
The `http::StatusCode` payload and the `u16` payload are embedded as `Nat`. -/
inductive StatusKind where
  | Http (c : Nat) : StatusKind
  | App (n : Nat) : StatusKind
deriving DecidableEq, Repr

/-- Embeds `StatusKind::to_http_status`: an `Http` status yields its code
unchanged, an `App` status yields `StatusCode::INTERNAL_SERVER_ERROR` (500). -/
def StatusKind.to_http_status : StatusKind → Nat
  | .Http c => c
  | .App _ => 500

/-- Embeds `struct AppError { status: StatusKind, error: String, message: String }`. -/
structure AppError where
  status : StatusKind
  error : String
  message : String
deriving DecidableEq, Repr

/-- Embeds `AppError::new`. -/
def AppError.new (status : StatusKind) (error message : String) : AppError :=
  { status := status, error := error, message := message }

/-- Embeds `AppError::internal_server_error`. -/
def AppError.internal_server_error (message : String) : AppError :=
  AppError.new (StatusKind.Http 500) "INTERNAL_SERVER_ERROR" message

/-- Embeds `AppError::not_found`. -/
def AppError.not_found (error message : String) : AppError :=
  AppError.new (StatusKind.Http 404) error message

/-- Embeds `AppError::bad_request`. -/
def AppError.bad_request (error message : String) : AppError :=
  AppError.new (StatusKind.Http 400) error message

/-- Embeds `AppError::unauthorized`. -/
def AppError.unauthorized (message : String) : AppError :=
  AppError.new (StatusKind.Http 401) "UNAUTHORIZED" message

/-- Embeds `AppError::conflict`. -/
def AppError.conflict (error message : String) : AppError :=
  AppError.new (StatusKind.Http 409) error message

/-- Embeds `impl From<Box<dyn std::error::Error + Send + Sync>> for AppError`,
which maps `err` to `Self::internal_server_error(err.to_string())`. The boxed
error value is represented by its string form `desc = err.to_string()`, the
only thing the conversion uses. -/
def boxed_error_to_app_error (desc : String) : AppError :=
  AppError.internal_server_error desc

/-- Embeds `impl From<surrealdb::Error> for AppError`, which maps `err` to
`Self::internal_server_error(format!("Database error: {err}"))`. The database
error value is represented by its display form `desc`. -/
def surrealdb_error_to_app_error (desc : String) : AppError :=
  AppError.internal_server_error ("Database error: " ++ desc)

/-! ## FieldValidator (src/lib.rs, macro check_empty_fields) -/

/-- A runtime field value of a record checked by the macro. The macro
downcasts each present value to `String`; `text` is the case where the
downcast succeeds, `num` the representative non-string case (the values the
spec and tests use, such as `Some(0)` or `Some(1i32)`). -/
inductive FieldValue where
  | text (s : List Char) : FieldValue
  | num (n : Int) : FieldValue
deriving DecidableEq, Repr

/-- The per-field condition of the macro body:
`payload.field.as_ref().map(|v| downcast_ref::<String>().map(|s| s.is_empty()).unwrap_or(false)).unwrap_or(true)`.
Absent fields yield `true`; a present string yields its emptiness; a present
non-string yields `false` (the failed downcast). -/
def isMissingOrEmpty : Option FieldValue → Bool
  | none => true
  | some (.text s) => s.isEmpty
  | some (.num _) => false

/-- Embeds the `check_empty_fields!` macro: iterate over the field names in
the given order and push each name whose value satisfies the per-field
condition. A record is embedded as a map from field name to the field's
optional value. -/
def check_empty_fields (record : List Char → Option FieldValue)
    (fields : List (List Char)) : List (List Char) :=
  fields.filter (fun f => isMissingOrEmpty (record f))

/-! ## RecordIdCodec (src/surrealdb.rs) -/

/-- Embeds Rust's `str::split(delim)` on a character list: the resulting
pieces, in order, never empty as a list (splitting the empty string yields
one empty piece, as in Rust). -/
def splitOn (delim : Char) : List Char → List (List Char)
  | [] => [[]]
  | c :: rest =>
    if c = delim then [] :: splitOn delim rest
    else
      match splitOn delim rest with
      | [] => [[c]]
      | p :: ps => (c :: p) :: ps

/-- Embeds `surrealdb::RecordId` as produced by `RecordId::from((table, key))`
applied to two string slices: a table name and a string key. -/
structure RecordId where
  table : List Char
  key : List Char
deriving DecidableEq, Repr

/-- Embeds `string_to_record_id`: reject the empty string, reject a string
without a colon, split on the colon and reject unless there are exactly two
pieces, else build the record id from them. -/
def string_to_record_id (s : List Char) : Option RecordId :=
  if s = [] then none
  else if ':' ∉ s then none
  else
    match splitOn ':' s with
    | [t, k] => some { table := t, key := k }
    | _ => none

/-- Embeds `serialize_record_id`, which writes `id.key().to_string()` — the
string form of the key portion — to the serializer. For the string keys this
library constructs, that string form is the key itself. -/
def serialize_record_id (id : RecordId) : List Char :=
  id.key

/-! ## TokenClaims (src/surrealdb.rs) -/

/-- Embeds `SurrealJWTClaims<T>`. Timestamps (`u64`) are embedded as `Nat`. -/
structure SurrealJWTClaims (T : Type) where
  iat : Nat
  nbf : Nat
  exp : Nat
  iss : String
  jti : String
  ns : String
  db : String
  ac : T
  id : String

/-- The three failure kinds of `decode_payload_insecurely`, one per fallible
step of its pipeline: the missing-payload check (`ok_or`), the base64url
decode (first `?`), and the deserialization into the claims shape
(second `?`). -/
inductive DecodeError where
  | MalformedToken : DecodeError
  | InvalidEncoding : DecodeError
  | InvalidPayload : DecodeError
deriving DecidableEq, Repr

/-- Embeds `decode_payload_insecurely`. The two external crate functions it
calls are parameters: `b64decode` stands for `URL_SAFE_NO_PAD.decode`
(base64url, no padding, yielding bytes) and `parseClaims` stands for
`serde_json::from_slice::<SurrealJWTClaims<T>>`. The function takes the
piece at index 1 of the dot-split of the token (`parts.nth(1)`), failing
with `MalformedToken` when it does not exist, then feeds it through the two
decoders, failing with `InvalidEncoding` and `InvalidPayload` respectively. -/
def decode_payload_insecurely {T : Type}
    (b64decode : List Char → Option (List Nat))
    (parseClaims : List Nat → Option (SurrealJWTClaims T))
    (token : List Char) : Except DecodeError (SurrealJWTClaims T) :=
  match (splitOn '.' token)[1]? with
  | none => .error .MalformedToken
  | some payload =>
    match b64decode payload with
    | none => .error .InvalidEncoding
    | some bytes =>
      match parseClaims bytes with
      | none => .error .InvalidPayload
      | some claims => .ok claims

/-! ## Helper lemmas -/

theorem splitOn_ne_nil (d : Char) (s : List Char) : splitOn d s ≠ [] := by
  cases s with
  | nil => simp [splitOn]
  | cons c rest =>
    simp only [splitOn]
    split
    · simp
    · split
      · simp
      · simp

theorem length_splitOn (d : Char) (s : List Char) :
    (splitOn d s).length = s.count d + 1 := by
  induction s with
  | nil => simp [splitOn]
  | cons c rest ih =>
    simp only [splitOn]
    by_cases hc : c = d
    · subst hc
      simp [ih, List.count_cons_self]
    · rw [if_neg hc]
      rcases hsp : splitOn d rest with _ | ⟨p, ps⟩
      · exact absurd hsp (splitOn_ne_nil d rest)
      · have hlen := ih
        rw [hsp] at hlen
        simp only [List.length_cons] at hlen ⊢
        rw [List.count_cons]
        simp only [beq_iff_eq, if_neg hc]
        omega

theorem splitOn_eq_single (d : Char) (s : List Char) (h : d ∉ s) :
    splitOn d s = [s] := by
  induction s with
  | nil => simp [splitOn]
  | cons c rest ih =>
    have hc : ¬ (c = d) := fun hcd => h (hcd ▸ List.mem_cons_self c rest)
    have hrest : d ∉ rest := fun hm => h (List.mem_cons_of_mem c hm)
    simp only [splitOn, if_neg hc, ih hrest]

theorem splitOn_append (d : Char) (a b : List Char) (ha : d ∉ a) :
    splitOn d (a ++ d :: b) = a :: splitOn d b := by
  induction a with
  | nil => simp [splitOn]
  | cons c a0 ih =>
    have hc : ¬ (c = d) := fun hcd => ha (hcd ▸ List.mem_cons_self c a0)
    have ha0 : d ∉ a0 := fun hm => ha (List.mem_cons_of_mem c hm)
    simp only [List.cons_append, splitOn, List.append_eq, if_neg hc, ih ha0]

theorem string_to_record_id_eq_none_iff (s : List Char) :
    string_to_record_id s = none ↔
      s = [] ∨ s.count ':' = 0 ∨ 1 < s.count ':' := by
  by_cases hs : s = []
  · subst hs
    simp [string_to_record_id]
  · by_cases hm : ':' ∈ s
    · have hcount : s.count ':' ≠ 0 := fun h0 => (List.count_eq_zero.mp h0) hm
      rw [string_to_record_id, if_neg hs, if_neg (fun hn => hn hm)]
      rcases hsp : splitOn ':' s with _ | ⟨t, _ | ⟨k, _ | ⟨x, rest⟩⟩⟩
      · exact absurd hsp (splitOn_ne_nil ':' s)
      · have hlen := length_splitOn ':' s
        rw [hsp] at hlen
        simp only [List.length_cons, List.length_nil] at hlen
        omega
      · have hlen := length_splitOn ':' s
        rw [hsp] at hlen
        simp only [List.length_cons, List.length_nil] at hlen
        have hone : s.count ':' = 1 := by omega
        simp [hs, hone]
      · have hlen := length_splitOn ':' s
        rw [hsp] at hlen
        simp only [List.length_cons, List.length_nil] at hlen
        exact iff_of_true rfl (Or.inr (Or.inr (by omega)))
    · have hcount : s.count ':' = 0 := List.count_eq_zero.mpr hm
      rw [string_to_record_id, if_neg hs, if_pos hm]
      simp [hcount]

theorem string_to_record_id_append (a b : List Char) (ha : ':' ∉ a)
    (hb : ':' ∉ b) :
    string_to_record_id (a ++ ':' :: b) = some { table := a, key := b } := by
  have hsp : splitOn ':' (a ++ ':' :: b) = [a, b] := by
    rw [splitOn_append ':' a b ha, splitOn_eq_single ':' b hb]
  have hne : a ++ ':' :: b ≠ [] := by simp
  have hmem : ':' ∈ a ++ ':' :: b := by simp
  rw [string_to_record_id, if_neg hne, if_neg (fun hn => hn hmem), hsp]

theorem isMissingOrEmpty_eq_true (v : Option FieldValue) :
    isMissingOrEmpty v = true ↔ v = none ∨ v = some (FieldValue.text []) := by
  rcases v with _ | v
  · simp [isMissingOrEmpty]
  · rcases v with s | n
    · simp [isMissingOrEmpty, List.isEmpty_iff]
    · simp [isMissingOrEmpty]

theorem count_filter_eq {α : Type} [BEq α] [LawfulBEq α] (p : α → Bool)
    (l : List α) (a : α) :
    (l.filter p).count a = if p a = true then l.count a else 0 := by
  by_cases hp : p a = true
  · rw [if_pos hp, List.count_filter hp]
  · rw [if_neg hp, List.count_eq_zero]
    intro hmem
    exact hp (List.of_mem_filter hmem)

/-! ## Claim theorems -/

/-- C1: for every record and every ordered list of field names,
check_empty_fields reports a field exactly when its value is absent or is a
present textual string equal to the empty string; a present non-text field is
never reported; the output is a sublist of the input field list (order
preserved) with the same multiplicity for every reported name (no
deduplication); and the record with count mapped to Some(0) and name mapped
to Some(empty string), checked against the fields count then name, yields
exactly the name field. -/
theorem check_empty_fields_spec (record : List Char → Option FieldValue)
    (fields : List (List Char)) :
    (∀ f, f ∈ check_empty_fields record fields ↔
      f ∈ fields ∧ (record f = none ∨ record f = some (FieldValue.text []))) ∧
    List.Sublist (check_empty_fields record fields) fields ∧
    (∀ f, (check_empty_fields record fields).count f =
      if record f = none ∨ record f = some (FieldValue.text [])
      then fields.count f else 0) ∧
    check_empty_fields
      (fun f => if f = "count".toList then some (FieldValue.num 0)
        else if f = "name".toList then some (FieldValue.text []) else none)
      ["count".toList, "name".toList] = ["name".toList] := by
  refine ⟨?_, List.filter_sublist _, ?_, by decide⟩
  · intro f
    rw [check_empty_fields, List.mem_filter, isMissingOrEmpty_eq_true]
  · intro f
    rw [check_empty_fields, count_filter_eq]
    by_cases hf : record f = none ∨ record f = some (FieldValue.text [])
    · rw [if_pos ((isMissingOrEmpty_eq_true (record f)).mpr hf), if_pos hf]
    · rw [if_neg (fun ht => hf ((isMissingOrEmpty_eq_true (record f)).mp ht)),
        if_neg hf]

/-- C2: string_to_record_id returns none exactly when the input is empty,
contains no colon, or contains more than one colon; otherwise (the input is
the colon-free part a, a single colon, then the colon-free part b) it returns
the record id with table a and key b. -/
theorem string_to_record_id_spec (s : List Char) :
    (string_to_record_id s = none ↔
      s = [] ∨ s.count ':' = 0 ∨ 1 < s.count ':') ∧
    (∀ a b : List Char, ':' ∉ a → ':' ∉ b → s = a ++ ':' :: b →
      string_to_record_id s = some { table := a, key := b }) := by
  refine ⟨string_to_record_id_eq_none_iff s, ?_⟩
  intro a b ha hb hs
  subst hs
  exact string_to_record_id_append a b ha hb

/-- Witness for C2 at a concrete well-formed input. -/
theorem string_to_record_id_spec_witness :
    string_to_record_id "tbl:key1".toList =
      some { table := "tbl".toList, key := "key1".toList } :=
  (string_to_record_id_spec "tbl:key1".toList).2 "tbl".toList "key1".toList
    (by decide) (by decide) (by decide)

/-- C10: any string containing exactly one colon parses successfully, even
when the table or key part is empty; in particular the single colon parses to
empty table and empty key, a-colon parses to table a and empty key, and
colon-b parses to empty table and key b. -/
theorem string_to_record_id_empty_parts (s : List Char)
    (h : s.count ':' = 1) :
    (string_to_record_id s).isSome = true ∧
    string_to_record_id ":".toList = some { table := [], key := [] } ∧
    string_to_record_id "a:".toList =
      some { table := "a".toList, key := [] } ∧
    string_to_record_id ":b".toList =
      some { table := [], key := "b".toList } := by
  refine ⟨?_, by decide, by decide, by decide⟩
  rw [← Option.ne_none_iff_isSome]
  intro hnone
  rcases (string_to_record_id_eq_none_iff s).mp hnone with h0 | h0 | h0
  · subst h0
    simp at h
  · omega
  · omega

/-- Witness for C10 at the single-colon input. -/
theorem string_to_record_id_empty_parts_witness :
    (string_to_record_id ":".toList).isSome = true :=
  (string_to_record_id_empty_parts ":".toList (by decide)).1

/-- C3: decode_payload_insecurely surfaces failure as a typed DecodeError
with exactly three kinds, never silently defaulted: a token with fewer than
two dot-separated segments fails with MalformedToken; a token whose middle
segment the base64url decoder rejects fails with InvalidEncoding; a token
whose decoded bytes the claims deserializer rejects fails with
InvalidPayload; every error is one of the three kinds, and success occurs
only when every step succeeds. -/
theorem decode_payload_insecurely_errors {T : Type}
    (b64decode : List Char → Option (List Nat))
    (parseClaims : List Nat → Option (SurrealJWTClaims T))
    (token : List Char) :
    ((splitOn '.' token).length < 2 →
      decode_payload_insecurely b64decode parseClaims token =
        .error .MalformedToken) ∧
    (∀ p, (splitOn '.' token)[1]? = some p → b64decode p = none →
      decode_payload_insecurely b64decode parseClaims token =
        .error .InvalidEncoding) ∧
    (∀ p bytes, (splitOn '.' token)[1]? = some p →
      b64decode p = some bytes → parseClaims bytes = none →
      decode_payload_insecurely b64decode parseClaims token =
        .error .InvalidPayload) ∧
    (∀ e, decode_payload_insecurely b64decode parseClaims token = .error e →
      e = .MalformedToken ∨ e = .InvalidEncoding ∨ e = .InvalidPayload) ∧
    (∀ c, decode_payload_insecurely b64decode parseClaims token = .ok c →
      ∃ p bytes, (splitOn '.' token)[1]? = some p ∧
        b64decode p = some bytes ∧ parseClaims bytes = some c) := by
  refine ⟨?_, ?_, ?_, ?_, ?_⟩
  · intro hlen
    have hnone : (splitOn '.' token)[1]? = none :=
      List.getElem?_eq_none (by omega)
    simp [decode_payload_insecurely, hnone]
  · intro p hp hb
    simp [decode_payload_insecurely, hp, hb]
  · intro p bytes hp hb hc
    simp [decode_payload_insecurely, hp, hb, hc]
  · intro e _
    cases e
    · exact Or.inl rfl
    · exact Or.inr (Or.inl rfl)
    · exact Or.inr (Or.inr rfl)
  · intro c hok
    rw [decode_payload_insecurely] at hok
    split at hok
    · simp at hok
    · rename_i p hp
      split at hok
      · simp at hok
      · rename_i bytes hb
        split at hok
        · simp at hok
        · rename_i claims hc
          simp only [Except.ok.injEq] at hok
          exact ⟨p, bytes, hp, hb, hok ▸ hc⟩

/-- Witness for C3: each of the three error kinds arises at a concrete
token with concrete decoder instantiations. -/
theorem decode_payload_insecurely_errors_witness :
    decode_payload_insecurely (T := Unit) (fun _ => none) (fun _ => none)
      "nodots".toList = .error .MalformedToken ∧
    decode_payload_insecurely (T := Unit) (fun _ => none) (fun _ => none)
      "a.b.c".toList = .error .InvalidEncoding ∧
    decode_payload_insecurely (T := Unit) (fun _ => some [])
      (fun _ => none) "a.b.c".toList = .error .InvalidPayload := by
  refine ⟨?_, ?_, ?_⟩
  · exact (decode_payload_insecurely_errors (T := Unit) (fun _ => none)
      (fun _ => none) "nodots".toList).1 (by decide)
  · exact (decode_payload_insecurely_errors (T := Unit) (fun _ => none)
      (fun _ => none) "a.b.c".toList).2.1 "b".toList (by decide) rfl
  · exact (decode_payload_insecurely_errors (T := Unit) (fun _ => some [])
      (fun _ => none) "a.b.c".toList).2.2.1 "b".toList [] (by decide) rfl rfl

/-- C4: decode_payload_insecurely performs no signature, expiry, not-before,
or issuer check: whenever the middle segment exists, the base64url decoder
accepts it, and the claims deserializer produces a claims value c, the
decode succeeds with c — for every c, hence regardless of the values of its
exp, nbf, iat, and iss fields. -/
theorem decode_payload_insecurely_no_validation {T : Type}
    (b64decode : List Char → Option (List Nat))
    (parseClaims : List Nat → Option (SurrealJWTClaims T))
    (token : List Char) (p : List Char) (bytes : List Nat)
    (c : SurrealJWTClaims T)
    (hp : (splitOn '.' token)[1]? = some p)
    (hb : b64decode p = some bytes)
    (hc : parseClaims bytes = some c) :
    decode_payload_insecurely b64decode parseClaims token = .ok c := by
  simp [decode_payload_insecurely, hp, hb, hc]

/-- Claims value with expiry 0, i.e. an expiry in the past, used to witness
that decoding ignores the timestamp fields. -/
def pastClaims : SurrealJWTClaims Unit :=
  { iat := 0, nbf := 0, exp := 0, iss := "", jti := "", ns := "", db := "",
    ac := (), id := "" }

/-- Witness for C4: a token whose payload decodes to a claims value with
expiry 0 (long in the past) still decodes successfully. -/
theorem decode_payload_insecurely_no_validation_witness :
    decode_payload_insecurely (fun _ => some [123])
      (fun _ => some pastClaims) "h.p.s".toList = .ok pastClaims ∧
    pastClaims.exp = 0 :=
  ⟨decode_payload_insecurely_no_validation (fun _ => some [123])
      (fun _ => some pastClaims) "h.p.s".toList "p".toList [123] pastClaims
      (by decide) rfl rfl,
    rfl⟩

/-- C5: to_http_status returns the contained code unchanged for every Http
status and returns 500 for every App numeric status, including 0. -/
theorem to_http_status_spec :
    (∀ c : Nat, (StatusKind.Http c).to_http_status = c) ∧
    (∀ n : Nat, (StatusKind.App n).to_http_status = 500) ∧
    (StatusKind.App 0).to_http_status = 500 :=
  ⟨fun _ => rfl, fun _ => rfl, rfl⟩

/-- C6: for every error code and message, each convenience constructor
produces an AppError whose status maps under to_http_status to 500, 404,
400, 401, 409 respectively, with the given error code and message stored
unchanged; internal_server_error fixes the code to INTERNAL_SERVER_ERROR and
unauthorized fixes it to UNAUTHORIZED. -/
theorem convenience_constructors_spec (ec msg : String) :
    ((AppError.internal_server_error msg).status.to_http_status = 500 ∧
      (AppError.internal_server_error msg).error = "INTERNAL_SERVER_ERROR" ∧
      (AppError.internal_server_error msg).message = msg) ∧
    ((AppError.not_found ec msg).status.to_http_status = 404 ∧
      (AppError.not_found ec msg).error = ec ∧
      (AppError.not_found ec msg).message = msg) ∧
    ((AppError.bad_request ec msg).status.to_http_status = 400 ∧
      (AppError.bad_request ec msg).error = ec ∧
      (AppError.bad_request ec msg).message = msg) ∧
    ((AppError.unauthorized msg).status.to_http_status = 401 ∧
      (AppError.unauthorized msg).error = "UNAUTHORIZED" ∧
      (AppError.unauthorized msg).message = msg) ∧
    ((AppError.conflict ec msg).status.to_http_status = 409 ∧
      (AppError.conflict ec msg).error = ec ∧
      (AppError.conflict ec msg).message = msg) :=
  ⟨⟨rfl, rfl, rfl⟩, ⟨rfl, rfl, rfl⟩, ⟨rfl, rfl, rfl⟩, ⟨rfl, rfl, rfl⟩,
    ⟨rfl, rfl, rfl⟩⟩

/-- C7: parsing user-colon-alice succeeds with table user, serializing the
parsed record id yields exactly alice, and serialize_record_id depends only
on the key portion — two record ids differing only in the table serialize
identically, so the table portion is never included. -/
theorem parse_serialize_round_trip :
    string_to_record_id "user:alice".toList =
      some { table := "user".toList, key := "alice".toList } ∧
    serialize_record_id { table := "user".toList, key := "alice".toList } =
      "alice".toList ∧
    (∀ t u k : List Char,
      serialize_record_id { table := t, key := k } =
        serialize_record_id { table := u, key := k }) :=
  ⟨by decide, rfl, fun _ _ _ => rfl⟩

/-- Counterexample for C8 as stated: at the database error whose display
form is the concrete string boom, the converted AppError message is the
prefixed string and not the string form of the cause itself. -/
theorem surrealdb_error_message_not_cause :
    (surrealdb_error_to_app_error "boom").message = "Database error: boom" ∧
    (surrealdb_error_to_app_error "boom").message ≠ "boom" := by
  refine ⟨rfl, ?_⟩
  decide

/-- C8 amended: the generic causal conversion produces
internal_server_error applied to the string form of the cause unchanged
(status 500, code INTERNAL_SERVER_ERROR, message equal to the string form);
the database error conversion produces the same status and code, but its
message is the string form prefixed with the text Database error and a
separating colon. -/
theorem error_conversions_spec (desc : String) :
    boxed_error_to_app_error desc = AppError.internal_server_error desc ∧
    (boxed_error_to_app_error desc).status.to_http_status = 500 ∧
    (boxed_error_to_app_error desc).error = "INTERNAL_SERVER_ERROR" ∧
    (boxed_error_to_app_error desc).message = desc ∧
    (surrealdb_error_to_app_error desc).status.to_http_status = 500 ∧
    (surrealdb_error_to_app_error desc).error = "INTERNAL_SERVER_ERROR" ∧
    (surrealdb_error_to_app_error desc).message = "Database error: " ++ desc :=
  ⟨rfl, rfl, rfl, rfl, rfl, rfl, rfl⟩

end MordeRs
